import Mathlib

/-
  Verification development for the apt-timeline backend (src/app.py).

  Shallow embedding: Python strings are modelled as `List Char` (`Str`);
  Python `Optional[str]` as `Option Str`; Python dicts (which preserve
  first-insertion order and overwrite values in place) as ordered
  association lists with `dictInsert`/`dictGet`; `datetime.date` as a
  `Date` record of numerals validated at parse time.  Python's stable
  `list.sort(key=..., reverse=...)` is modelled by `List.insertionSort`
  with a non-strict comparison on sort keys: a stable sort's output is
  uniquely determined by the comparator and the input order, so any
  stable sort is an exact model.
-/

namespace AptTimeline

abbrev Str := List Char

def str (s : String) : Str := s.data

/-- Python `s.lower()` (ASCII case fold, which is all the data uses). -/
def lower (s : Str) : Str := s.map Char.toLower

/-- Python substring test `needle in hay`. -/
def containsSub (needle : Str) : Str → Bool
  | [] => needle.isEmpty
  | c :: rest => needle.isPrefixOf (c :: rest) || containsSub needle rest

-- ---------- Calendar dates (datetime.date) ----------

structure Date where
  year : Nat
  month : Nat
  day : Nat
deriving DecidableEq, Repr

def isLeap (y : Nat) : Bool :=
  (y % 4 == 0 && y % 100 != 0) || y % 400 == 0

def daysInMonth (y m : Nat) : Nat :=
  if m = 2 then (if isLeap y then 29 else 28)
  else if m = 4 ∨ m = 6 ∨ m = 9 ∨ m = 11 then 30
  else 31

/-- The `datetime` constructor's validation (MINYEAR = 1, MAXYEAR = 9999). -/
def validDate (y m d : Nat) : Bool :=
  decide (1 ≤ y) && decide (y ≤ 9999) && decide (1 ≤ m) && decide (m ≤ 12) &&
  decide (1 ≤ d) && decide (d ≤ daysInMonth y m)

/-- Python `date.__lt__`: lexicographic on (year, month, day). -/
def dateLt (a b : Date) : Bool :=
  decide (a.year < b.year) ||
  (a.year == b.year &&
    (decide (a.month < b.month) ||
     (a.month == b.month && decide (a.day < b.day))))

def dateLe (a b : Date) : Bool := dateLt a b || a == b

-- ---------- Decimal digits and date formatting ----------

/-- The numeric value of an ASCII decimal digit character, if it is one. -/
def digitVal? (c : Char) : Option Nat :=
  if 48 ≤ c.toNat ∧ c.toNat ≤ 57 then some (c.toNat - 48) else none

/-- The ASCII character of a decimal digit value. -/
def digitChar (n : Nat) : Char :=
  if n ≤ 9 then Char.ofNat (48 + n) else '*'

def pad2 (n : Nat) : Str := [digitChar (n / 10), digitChar (n % 10)]

def pad4 (n : Nat) : Str :=
  [digitChar (n / 1000), digitChar (n / 100 % 10), digitChar (n / 10 % 10), digitChar (n % 10)]

/-- Python `date.isoformat()`: `%04d-%02d-%02d` (years are ≤ 9999). -/
def fmtDate (dt : Date) : Str :=
  pad4 dt.year ++ '-' :: (pad2 dt.month ++ '-' :: pad2 dt.day)

-- ---------- strptime(s, "%Y-%m-%d") ----------

/-- `%Y`: exactly four digits. -/
def read4 : Str → Option (Nat × Str)
  | a :: b :: c :: d :: rest =>
    match digitVal? a, digitVal? b, digitVal? c, digitVal? d with
    | some x1, some x2, some x3, some x4 =>
      some (((x1 * 10 + x2) * 10 + x3) * 10 + x4, rest)
    | _, _, _, _ => none
  | _ => none

/-- `%m` (CPython regex alternation `1[0-2]|0[1-9]|[1-9]`, in that order). -/
def readMonth : Str → Option (Nat × Str)
  | '1' :: c :: rest =>
    (match digitVal? c with
     | some v => if v ≤ 2 then some (10 + v, rest) else some (1, c :: rest)
     | none => some (1, c :: rest))
  | '0' :: c :: rest =>
    (match digitVal? c with
     | some v => if 1 ≤ v then some (v, rest) else none
     | none => none)
  | c :: rest =>
    (match digitVal? c with
     | some v => if 1 ≤ v then some (v, rest) else none
     | none => none)
  | [] => none

/-- `%d` (CPython regex alternation `3[01]|[12]\d|0[1-9]|[1-9]`, in that order). -/
def readDay : Str → Option (Nat × Str)
  | '3' :: c :: rest =>
    (match digitVal? c with
     | some v => if v ≤ 1 then some (30 + v, rest) else some (3, c :: rest)
     | none => some (3, c :: rest))
  | '1' :: c :: rest =>
    (match digitVal? c with
     | some v => some (10 + v, rest)
     | none => some (1, c :: rest))
  | '2' :: c :: rest =>
    (match digitVal? c with
     | some v => some (20 + v, rest)
     | none => some (2, c :: rest))
  | '0' :: c :: rest =>
    (match digitVal? c with
     | some v => if 1 ≤ v then some (v, rest) else none
     | none => none)
  | c :: rest =>
    (match digitVal? c with
     | some v => if 1 ≤ v then some (v, rest) else none
     | none => none)
  | [] => none

/-- The `datetime`/`date` constructor: validates the numerals. -/
def mkValidDate (y m d : Nat) : Option Date :=
  if validDate y m d then some ⟨y, m, d⟩ else none

/-- `datetime.strptime(s, "%Y-%m-%d").date()`: full match required, then the
    `datetime` constructor validates the numerals. -/
def strptimeYMD (s : Str) : Option Date :=
  match read4 s with
  | some (y, rest) =>
    (match rest with
     | c2 :: r2 =>
       if c2 = '-' then
         (match readMonth r2 with
          | some (m, r3) =>
            (match r3 with
             | c4 :: r4 =>
               if c4 = '-' then
                 (match readDay r4 with
                  | some (d, r5) =>
                    if r5.isEmpty then mkValidDate y m d else none
                  | none => none)
               else none
             | [] => none)
          | none => none)
       else none
     | [] => none)
  | none => none

-- ---------- datetime.fromisoformat ----------

/-- Exactly two digits, as a number. -/
def read2 : Str → Option (Nat × Str)
  | a :: b :: rest =>
    (match digitVal? a, digitVal? b with
     | some x1, some x2 => some (x1 * 10 + x2, rest)
     | _, _ => none)
  | _ => none

/-- A UTC-offset suffix `±HH:MM` or `±HH:MM:SS`. -/
def offsetOk (cs : Str) : Bool :=
  match cs with
  | sign :: rest =>
    (sign == '+' || sign == '-') &&
    (match read2 rest with
     | some (h, r1) =>
       decide (h ≤ 23) &&
       (match r1 with
        | ':' :: r2 =>
          (match read2 r2 with
           | some (m, r3) =>
             decide (m ≤ 59) &&
             (r3.isEmpty ||
              (match r3 with
               | ':' :: r4 =>
                 (match read2 r4 with
                  | some (s, r5) => decide (s ≤ 59) && r5.isEmpty
                  | none => false)
               | _ => false))
           | none => false)
        | _ => false)
     | none => false)
  | [] => false

/-- After the seconds: end, offset, or a fraction of exactly 3 or 6 digits
    followed by end or offset. -/
def afterSeconds (r : Str) : Bool :=
  r.isEmpty || offsetOk r ||
  (match r with
   | '.' :: a :: b :: c :: rest =>
     (digitVal? a).isSome && (digitVal? b).isSome && (digitVal? c).isSome &&
     (rest.isEmpty || offsetOk rest ||
      (match rest with
       | d :: e :: f :: rest2 =>
         (digitVal? d).isSome && (digitVal? e).isSome && (digitVal? f).isSome &&
         (rest2.isEmpty || offsetOk rest2)
       | _ => false))
   | _ => false)

def afterMinutes (r : Str) : Bool :=
  r.isEmpty || offsetOk r ||
  (match r with
   | ':' :: r2 =>
     (match read2 r2 with
      | some (s, r3) => decide (s ≤ 59) && afterSeconds r3
      | none => false)
   | _ => false)

/-- The time-of-day part `HH[:MM[:SS[.fff[fff]]]][±HH:MM[:SS]]`. -/
def timeOk (cs : Str) : Bool :=
  match read2 cs with
  | some (h, r1) =>
    decide (h ≤ 23) &&
    (r1.isEmpty || offsetOk r1 ||
     (match r1 with
      | ':' :: r2 =>
        (match read2 r2 with
         | some (m, r3) => decide (m ≤ 59) && afterMinutes r3
         | none => false)
      | _ => false))
  | none => false

/-- `datetime.fromisoformat(s).date()`: a strict `YYYY-MM-DD` (two-digit month
    and day), optionally followed by one separator character and a valid
    time-of-day part; the calendar date is returned (truncation to the date). -/
def fromiso (cs : Str) : Option Date :=
  match cs with
  | a :: b :: c :: d :: '-' :: e :: f :: '-' :: g :: h :: rest =>
    (match digitVal? a, digitVal? b, digitVal? c, digitVal? d,
           digitVal? e, digitVal? f, digitVal? g, digitVal? h with
     | some y1, some y2, some y3, some y4, some m1, some m2, some d1, some d2 =>
       let y := ((y1 * 10 + y2) * 10 + y3) * 10 + y4
       let m := m1 * 10 + m2
       let dd := d1 * 10 + d2
       let restOk := match rest with
         | [] => true
         | _sep :: t => timeOk t
       if restOk then mkValidDate y m dd else none
     | _, _, _, _, _, _, _, _ => none)
  | _ => none

/-- `date_str.replace("Z", "+00:00")` (the needle is a single character, so
    this is a character-wise expansion). -/
def replaceZ (cs : Str) : Str :=
  cs.flatMap (fun c => if c == 'Z' then str "+00:00" else [c])

-- ---------- src/app.py helpers ----------

/-- `_iso` from src/app.py: normalize an optional date-or-timestamp string to
    `YYYY-MM-DD`, trying `datetime.fromisoformat` on the Z-replaced string
    first, then `strptime(s, "%Y-%m-%d")`, returning `none` on failure. -/
def _iso (date_str : Option Str) : Option Str :=
  match date_str with
  | none => none
  | some cs =>
    if cs.isEmpty then none
    else
      match fromiso (replaceZ cs) with
      | some dt => some (fmtDate dt)
      | none =>
        match strptimeYMD cs with
        | some dt => some (fmtDate dt)
        | none => none

/-- `_pick_best_date`: `_iso(first_seen) or _iso(last_seen)` with Python
    truthiness (an empty string would also fall through). -/
def _pick_best_date (first_seen last_seen : Option Str) : Option Str :=
  match _iso first_seen with
  | some s => if s.isEmpty then _iso last_seen else some s
  | none => _iso last_seen

structure ExtRef where
  url : Option Str
deriving DecidableEq, Repr

/-- `_normalize_attack_url`: first reference URL containing "attack.mitre.org". -/
def _normalize_attack_url (external_references : List ExtRef) : Option Str :=
  external_references.findSome? (fun ref =>
    match ref.url with
    | some u => if !u.isEmpty && containsSub (str "attack.mitre.org") u then some u else none
    | none => none)

-- ---------- Pydantic models ----------

structure Group where
  name : Str
  country : Option Str
  aliases : List Str
  refs : List Str
deriving DecidableEq, Repr

structure Campaign where
  id : Str
  name : Str
  description : Option Str
  first_seen : Option Str
  last_seen : Option Str
  sources : List Str
  group : Option Str
  mitre_url : Option Str
deriving DecidableEq, Repr

structure DateRange where
  first_seen : Option Str
  last_seen : Option Str
deriving DecidableEq, Repr

structure TimelineEvent where
  group_name : Str
  country : Option Str
  campaign : Str
  date : Option Str
  date_range : DateRange
  summary : Option Str
  source_url : Option Str
  mitre_url : Option Str
deriving DecidableEq, Repr

structure Cache where
  fetched_at : Option Str
  groups : List Group
  campaigns : List Campaign
deriving DecidableEq, Repr

-- ---------- Python dicts (insertion-ordered, overwrite in place) ----------

def dictInsert {V : Type} (m : List (Str × V)) (k : Str) (v : V) : List (Str × V) :=
  if m.any (fun p => p.1 == k) then m.map (fun p => if p.1 == k then (k, v) else p)
  else m ++ [(k, v)]

/-- Lookup; when duplicates were never inserted this is ordinary association
    lookup (taking the last occurrence keeps it total either way). -/
def dictGet {V : Type} : List (Str × V) → Str → Option V
  | [], _ => none
  | (k', v) :: rest, k =>
    match dictGet rest k with
    | some w => some w
    | none => if k == k' then some v else none

-- ---------- Data loaders ----------

/-- One entry of the MISP Galaxy `values` array (`value` plus `meta` keys). -/
structure MispEntry where
  value : Option Str
  country : Option Str
  synonyms : Option (List Str)
  refs : Option (List Str)
deriving DecidableEq, Repr

/-- `load_misp_groups` on the decoded `values` array: entries whose `value`
    is missing or empty are skipped. -/
def load_misp_groups (values : List MispEntry) : List Group :=
  values.filterMap (fun v =>
    match v.value with
    | none => none
    | some name =>
      if name.isEmpty then none
      else some { name := name,
                  country := v.country,
                  aliases := v.synonyms.getD [],
                  refs := v.refs.getD [] })

/-- One object of the STIX bundle's `objects` array, restricted to the keys
    the loader reads.  `id` is a mandatory STIX key (the source indexes it
    unconditionally with `obj["id"]`), so it is modelled total. -/
structure StixObj where
  type : Option Str
  id : Str
  name : Option Str
  description : Option Str
  first_seen : Option Str
  last_seen : Option Str
  relationship_type : Option Str
  source_ref : Option Str
  target_ref : Option Str
  external_references : List ExtRef
deriving DecidableEq, Repr

/-- The typed-index loop of `load_mitre_campaigns_with_groups`: campaign
    dict, intrusion-set dict, relationship list. -/
def indexBundle (objects : List StixObj) :
    List (Str × StixObj) × List (Str × StixObj) × List StixObj :=
  objects.foldl (fun acc obj =>
    match obj.type with
    | some t =>
      if t = str "campaign" then (dictInsert acc.1 obj.id obj, acc.2.1, acc.2.2)
      else if t = str "intrusion-set" then (acc.1, dictInsert acc.2.1 obj.id obj, acc.2.2)
      else if t = str "relationship" then (acc.1, acc.2.1, acc.2.2 ++ [obj])
      else acc
    | none => acc) ([], [], [])

/-- `campaign_to_intrusions.get(cid, [])`: the targets, in edge scan order, of
    the `attributed-to` relationships from `cid` passing both prefix checks
    (the `setdefault`/`append` dict groups per key in exactly this order). -/
def attributedTargets (relationships : List StixObj) (cid : Str) : List Str :=
  relationships.filterMap (fun rel =>
    if rel.relationship_type == some (str "attributed-to") then
      match rel.source_ref, rel.target_ref with
      | some src, some tgt =>
        if !src.isEmpty && (str "campaign--").isPrefixOf src &&
           !tgt.isEmpty && (str "intrusion-set--").isPrefixOf tgt &&
           src == cid
        then some tgt else none
      | _, _ => none
    else none)

/-- The resolvable attributed names of one campaign: for each target in edge
    order, keep the intrusion-set node's name when the node exists and its
    name is non-empty (`if in_obj and in_obj.get("name")`). -/
def resolvedNames (intrusion_sets : List (Str × StixObj)) (targets : List Str) : List Str :=
  targets.filterMap (fun intru_id =>
    match dictGet intrusion_sets intru_id with
    | some in_obj =>
      (match in_obj.name with
       | some n => if n.isEmpty then none else some n
       | none => none)
    | none => none)

/-- `load_mitre_campaigns_with_groups` on the decoded `objects` array. -/
def load_mitre_campaigns_with_groups (objects : List StixObj) : List Campaign :=
  let idx := indexBundle objects
  idx.1.map (fun p =>
    let cid := p.1
    let cobj := p.2
    let ir_names := resolvedNames idx.2.1 (attributedTargets idx.2.2 cid)
    let ext_refs := cobj.external_references
    { id := cid,
      name := cobj.name.getD (str "Unknown Campaign"),
      description := cobj.description,
      first_seen := cobj.first_seen,
      last_seen := cobj.last_seen,
      sources := ext_refs.filterMap (fun r =>
        match r.url with
        | some u => if u.isEmpty then none else some u
        | none => none),
      group := ir_names.head?,
      mitre_url := _normalize_attack_url ext_refs })

-- ---------- Enrichment & normalization ----------

/-- `build_alias_map`: lowercase name and aliases → Group, later entries
    overwriting earlier ones. -/
def build_alias_map (groups : List Group) : List (Str × Group) :=
  groups.foldl (fun idx g =>
    g.aliases.foldl (fun idx a => dictInsert idx (lower a) g)
      (dictInsert idx (lower g.name) g)) []

/-- Whether one actor entry claims a lookup key in the alias map: its primary
    name or one of its synonyms lower-cases to the key. -/
def claimsKey (g : Group) (k : Str) : Bool :=
  (lower g.name == k) || g.aliases.any (fun a => lower a == k)

/-- Python truthiness of the `value` field (`if not name: continue`). -/
def truthyName (v : MispEntry) : Bool :=
  match v.value with
  | some n => !n.isEmpty
  | none => false

/-- `gname = c.group or "Unknown"` (Python truthiness: an empty string also
    falls back to the literal). -/
def labelOf (c : Campaign) : Str :=
  match c.group with
  | some s => if s.isEmpty then str "Unknown" else s
  | none => str "Unknown"

/-- The body of the `to_timeline_events` loop for one campaign. -/
def eventOfCampaign (alias_map : List (Str × Group)) (c : Campaign) : TimelineEvent :=
  let gname := labelOf c
  let gmatch := dictGet alias_map (lower gname)
  let country := match gmatch with
    | some g => g.country
    | none => none
  { group_name := match gmatch with
      | some g => g.name
      | none => gname,
    country := some (match country with
      | some s => if s.isEmpty then str "Unknown" else s
      | none => str "Unknown"),
    campaign := c.name,
    date := _pick_best_date c.first_seen c.last_seen,
    date_range := { first_seen := _iso c.first_seen, last_seen := _iso c.last_seen },
    summary := c.description,
    source_url := c.sources.head?,
    mitre_url := c.mitre_url }

def to_timeline_events (campaigns : List Campaign) (groups : List Group) : List TimelineEvent :=
  campaigns.map (eventOfCampaign (build_alias_map groups))

/-- The campaigns whose enriched event carries the country "Unknown": the
    effective group label resolves to no actor record, or the resolved
    record's country is absent or empty. -/
def unknownCountry (groups : List Group) (c : Campaign) : Bool :=
  match dictGet (build_alias_map groups) (lower (labelOf c)) with
  | none => true
  | some g =>
    match g.country with
    | none => true
    | some s => s.isEmpty

-- ---------- Query engine ----------

structure TimelineQuery where
  group : Option Str := none
  country : Option Str := none
  from_date : Option Str := none
  to_date : Option Str := none
  limit : Int := 500
  sort : Str := str "date_desc"
deriving DecidableEq, Repr

/-- The country filter stage of `get_timeline`:
    `[e for e in events if (e.country or "").lower() == cq]`. -/
def countryFilter (cq : Str) (events : List TimelineEvent) : List TimelineEvent :=
  events.filter (fun e => lower (e.country.getD []) == lower cq)

/-- The inner `date_in_range` closure of `get_timeline`. -/
def date_in_range (from_date to_date : Option Str) (d : Option Str) : Bool :=
  match d with
  | none => true
  | some ds =>
    if ds.isEmpty then true
    else
      match strptimeYMD ds with
      | none => true
      | some dt =>
        (match from_date with
         | some fs =>
           if fs.isEmpty then true
           else
             (match strptimeYMD fs with
              | some f => !dateLt dt f
              | none => true)
         | none => true) &&
        (match to_date with
         | some ts =>
           if ts.isEmpty then true
           else
             (match strptimeYMD ts with
              | some t => !dateLt t dt
              | none => true)
         | none => true)

/-- The `sort_key` closure: unparseable or missing dates get the 1900-01-01
    sentinel. -/
def sort_key (ev : TimelineEvent) : Date :=
  match ev.date with
  | none => ⟨1900, 1, 1⟩
  | some s =>
    match strptimeYMD s with
    | some dt => dt
    | none => ⟨1900, 1, 1⟩

def evLeAsc (a b : TimelineEvent) : Prop := dateLe (sort_key a) (sort_key b) = true

def evLeDesc (a b : TimelineEvent) : Prop := dateLe (sort_key b) (sort_key a) = true

instance : DecidableRel evLeAsc := fun _ _ => Bool.decEq _ _

instance : DecidableRel evLeDesc := fun _ _ => Bool.decEq _ _

/-- `events.sort(key=sort_key, reverse=(sort == "date_desc"))`, modelled by a
    stable sort under the non-strict key comparison. -/
def sortEvents (sort : Str) (events : List TimelineEvent) : List TimelineEvent :=
  if sort == str "date_desc" then List.insertionSort evLeDesc events
  else List.insertionSort evLeAsc events

/-- The `/timeline` handler body on a snapshot, after parameter validation. -/
def get_timeline (campaigns : List Campaign) (groups : List Group)
    (q : TimelineQuery) : List TimelineEvent :=
  let events := to_timeline_events campaigns groups
  let events := match q.group with
    | some g => if g.isEmpty then events
                else events.filter (fun e => lower e.group_name == lower g)
    | none => events
  let events := match q.country with
    | some cq => if cq.isEmpty then events else countryFilter cq events
    | none => events
  let events := events.filter (fun e => date_in_range q.from_date q.to_date e.date)
  let events := sortEvents q.sort events
  events.take q.limit.toNat

/-- FastAPI's declarative parameter validation on `/timeline`:
    `limit: int = Query(500, ge=1, le=5000)` and
    `sort: str = Query("date_desc", regex="^(date_asc|date_desc)$")`.
    A violation is rejected with a 422 validation error before the handler
    runs; nothing is clamped. -/
def validateQuery (q : TimelineQuery) : Bool :=
  decide (1 ≤ q.limit) && decide (q.limit ≤ 5000) &&
  (q.sort == str "date_asc" || q.sort == str "date_desc")

/-- The `/timeline` endpoint: validation, then the handler. -/
def get_timeline_endpoint (campaigns : List Campaign) (groups : List Group)
    (q : TimelineQuery) : Except Str (List TimelineEvent) :=
  if validateQuery q then Except.ok (get_timeline campaigns groups q)
  else Except.error (str "422 Unprocessable Entity")

-- ---------- Refresh routine ----------

/-- `refresh_cache`: both fetches are awaited before any cache field is
    assigned, so a failure of either leaves the cache untouched; on success
    all three fields are replaced and `touch()` stamps the current time. -/
def refresh_cache (fetch_misp : Except Str (List MispEntry))
    (fetch_mitre : Except Str (List StixObj)) (now : Str)
    (cache : Cache) : Cache × Except Str Unit :=
  match fetch_misp with
  | Except.error e => (cache, Except.error e)
  | Except.ok values =>
    match fetch_mitre with
    | Except.error e => (cache, Except.error e)
    | Except.ok objects =>
      ({ fetched_at := some now,
         groups := load_misp_groups values,
         campaigns := load_mitre_campaigns_with_groups objects },
       Except.ok ())

/-- The `POST /refresh` handler: success returns the new timestamp, failure
    becomes an HTTP 500 failure result for the caller. -/
def force_refresh (fetch_misp : Except Str (List MispEntry))
    (fetch_mitre : Except Str (List StixObj)) (now : Str)
    (cache : Cache) : Cache × Except Str (Option Str) :=
  match refresh_cache fetch_misp fetch_mitre now cache with
  | (c, Except.ok _) => (c, Except.ok c.fetched_at)
  | (c, Except.error e) => (c, Except.error e)

/-- Actor records whose country metadata can never read as "Unknown"
    (absent is fine; a present country is non-"unknown" case-insensitively). -/
def okCountry (g : Group) : Bool :=
  match g.country with
  | some s => !(lower s == str "unknown")
  | none => true

/-- An event whose parseable primary date lies strictly after the 1900-01-01
    sort sentinel (vacuously true for missing or unparseable dates). -/
def afterSentinel (e : TimelineEvent) : Bool :=
  match e.date with
  | some s =>
    (match strptimeYMD s with
     | some dt => dateLt ⟨1900, 1, 1⟩ dt
     | none => true)
  | none => true

-- ---------- Concrete instances used by witnesses and counterexamples ----------

def emptyStix : StixObj :=
  { type := none, id := [], name := none, description := none, first_seen := none,
    last_seen := none, relationship_type := none, source_ref := none, target_ref := none,
    external_references := [] }

def emptyCampaign : Campaign :=
  { id := [], name := [], description := none, first_seen := none, last_seen := none,
    sources := [], group := none, mitre_url := none }

def emptyEvent : TimelineEvent :=
  { group_name := [], country := some (str "Unknown"), campaign := [], date := none,
    date_range := { first_seen := none, last_seen := none }, summary := none,
    source_url := none, mitre_url := none }

def c1camp : StixObj :=
  { emptyStix with type := some (str "campaign"), id := str "campaign--1",
                   name := some (str "Op X") }

def c1iset : StixObj :=
  { emptyStix with type := some (str "intrusion-set"), id := str "intrusion-set--9",
                   name := some (str "Fancy Bear") }

def c1relDangling : StixObj :=
  { emptyStix with type := some (str "relationship"), id := str "relationship--0",
                   relationship_type := some (str "attributed-to"),
                   source_ref := some (str "campaign--1"),
                   target_ref := some (str "intrusion-set--missing") }

def c1relOk : StixObj :=
  { emptyStix with type := some (str "relationship"), id := str "relationship--1",
                   relationship_type := some (str "attributed-to"),
                   source_ref := some (str "campaign--1"),
                   target_ref := some (str "intrusion-set--9") }

/-- A bundle whose campaign has two attribution edges: the first dangling,
    the second resolving to a named intrusion set. -/
def c1bundle : List StixObj := [c1camp, c1iset, c1relDangling, c1relOk]

def c1wbundle : List StixObj := [c1camp]

def c1wcamp : Campaign :=
  { emptyCampaign with id := str "campaign--1", name := str "Op X" }

def c2ghost : Campaign :=
  { emptyCampaign with id := str "campaign--2", name := str "Ghost Op",
                       group := some (str "GhostBear") }

def c2groups : List Group :=
  [{ name := str "APT28", country := some (str "Russia"), aliases := [], refs := [] }]

def c2wcamps : List Campaign :=
  [c2ghost,
   { emptyCampaign with id := str "campaign--3", name := str "Bear Op",
                        group := some (str "APT28") },
   { emptyCampaign with id := str "campaign--4", name := str "Lone Op" }]

def c4values : List MispEntry :=
  [{ value := some (str "APT28"), country := some (str "Russia"),
     synonyms := some [str "Fancy Bear"], refs := none },
   { value := none, country := some (str "Nowhere"), synonyms := some [str "Ghost"],
     refs := none },
   { value := some (str "Turla"), country := some (str "Russia"),
     synonyms := some [str "Fancy Bear"], refs := none }]

def c4g : Group :=
  { name := str "Turla", country := some (str "Russia"),
    aliases := [str "Fancy Bear"], refs := [] }

def c7campNone : Campaign :=
  { emptyCampaign with id := str "campaign--n", name := str "Undated Op" }

def c7camp18 : Campaign :=
  { emptyCampaign with id := str "campaign--o", name := str "Old Op",
                       first_seen := some (str "1850-01-01") }

def c7evNone : TimelineEvent :=
  { emptyEvent with group_name := str "G1", campaign := str "Undated" }

def c7ev21 : TimelineEvent :=
  { emptyEvent with group_name := str "G2", campaign := str "Recent",
                    date := some (str "2021-06-01") }

def c8cache : Cache :=
  { fetched_at := some (str "2025-01-01T00:00:00+00:00"),
    groups := [{ name := str "APT28", country := some (str "Russia"),
                 aliases := [], refs := [] }],
    campaigns := [c1wcamp] }

def c10camp : Campaign :=
  { emptyCampaign with id := str "campaign--t", name := str "Stamped Op",
                       first_seen := some (str "2021-03-05T00:00:00Z") }

-- ---------- Helper lemmas: dates ----------

theorem date_eq_iff (a b : Date) :
    a = b ↔ (a.year = b.year ∧ a.month = b.month ∧ a.day = b.day) := by
  cases a; cases b; simp [Date.mk.injEq]

theorem dateLt_false_iff (a b : Date) : dateLt a b = false ↔ dateLe b a = true := by
  cases a; cases b
  simp only [dateLt, dateLe, Bool.or_eq_true, Bool.and_eq_true, decide_eq_true_eq,
    beq_iff_eq, Date.mk.injEq, Bool.or_eq_false_iff, Bool.and_eq_false_iff,
    decide_eq_false_iff_not, beq_eq_false_iff_ne, ne_eq]
  constructor
  · intro h
    omega
  · intro h
    omega

theorem dateLe_total (a b : Date) : dateLe a b = true ∨ dateLe b a = true := by
  cases a; cases b
  simp only [dateLe, dateLt, Bool.or_eq_true, Bool.and_eq_true, decide_eq_true_eq,
    beq_iff_eq, Date.mk.injEq]
  omega

theorem dateLe_trans (a b c : Date) (h1 : dateLe a b = true) (h2 : dateLe b c = true) :
    dateLe a c = true := by
  cases a; cases b; cases c
  simp only [dateLe, dateLt, Bool.or_eq_true, Bool.and_eq_true, decide_eq_true_eq,
    beq_iff_eq, Date.mk.injEq] at h1 h2 ⊢
  omega

theorem dateLe_antisymm_lt (a b : Date) (h1 : dateLe a b = true)
    (h2 : dateLt b a = true) : False := by
  cases a; cases b
  simp only [dateLe, dateLt, Bool.or_eq_true, Bool.and_eq_true, decide_eq_true_eq,
    beq_iff_eq, Date.mk.injEq] at h1 h2
  omega

theorem fmtDate_not_empty (dt : Date) : (fmtDate dt).isEmpty = false := by
  simp [fmtDate, pad4]

theorem _iso_not_empty (x : Option Str) (s : Str) (h : _iso x = some s) :
    s.isEmpty = false := by
  unfold _iso at h
  split at h
  · exact absurd h (by simp)
  · split at h
    · exact absurd h (by simp)
    · split at h
      · cases h; exact fmtDate_not_empty _
      · split at h
        · cases h; exact fmtDate_not_empty _
        · exact absurd h (by simp)

theorem pick_best_eq_or (f l : Option Str) :
    _pick_best_date f l = (_iso f).or (_iso l) := by
  unfold _pick_best_date
  cases hf : _iso f with
  | none => simp
  | some s => simp [_iso_not_empty f s hf]

-- ---------- Helper lemmas: Python dicts and the alias map ----------

theorem dictGet_append {V : Type} (xs ys : List (Str × V)) (k : Str) :
    dictGet (xs ++ ys) k =
      match dictGet ys k with
      | some w => some w
      | none => dictGet xs k := by
  induction xs with
  | nil =>
    simp only [List.nil_append]
    cases dictGet ys k <;> rfl
  | cons p t ih =>
    obtain ⟨pk, pv⟩ := p
    simp only [List.cons_append, dictGet]
    rw [show (t.append ys) = t ++ ys from rfl, ih]
    cases dictGet ys k <;> cases dictGet t k <;> rfl

theorem dictGet_map_replace {V : Type} (t : List (Str × V)) (k : Str) (v : V) (kq : Str) :
    dictGet (t.map (fun p => if p.1 == k then (k, v) else p)) kq =
      if kq == k then (if t.any (fun p => p.1 == k) then some v else none)
      else dictGet t kq := by
  induction t with
  | nil =>
    by_cases hq : kq = k
    · subst hq; simp [dictGet]
    · simp [dictGet, hq]
  | cons p t ih =>
    obtain ⟨pk, pv⟩ := p
    by_cases hp : pk = k
    · subst hp
      simp only [List.map_cons, beq_self_eq_true, if_true, List.any_cons, Bool.true_or]
      simp only [dictGet, ih]
      by_cases hq : kq = pk
      · subst hq
        simp only [beq_self_eq_true, if_true]
        by_cases ha : t.any (fun p => p.1 == kq) = true
        · simp [ha]
        · simp only [Bool.not_eq_true] at ha
          simp [ha]
      · have hqb : (kq == pk) = false := by simpa using hq
        simp [hqb]
    · have hpb : (pk == k) = false := by simpa using hp
      simp only [List.map_cons, hpb, Bool.false_eq_true, if_false, List.any_cons, Bool.false_or]
      simp only [dictGet, ih]
      by_cases hq : kq = k
      · subst hq
        have h2 : (kq == pk) = false := by
          simp only [beq_eq_false_iff_ne, ne_eq]
          exact fun h => hp h.symm
        simp only [beq_self_eq_true, if_true]
        by_cases ha : t.any (fun p => p.1 == kq) = true
        · simp [ha, h2]
        · simp only [Bool.not_eq_true] at ha
          simp [ha, h2]
      · have hqb : (kq == k) = false := by simpa using hq
        simp [hqb]

theorem dictGet_insert {V : Type} (m : List (Str × V)) (k : Str) (v : V) (kq : Str) :
    dictGet (dictInsert m k v) kq = if kq == k then some v else dictGet m kq := by
  unfold dictInsert
  by_cases hany : m.any (fun p => p.1 == k) = true
  · simp only [hany, if_true, dictGet_map_replace]
  · simp only [Bool.not_eq_true] at hany
    simp only [hany, Bool.false_eq_true, if_false, dictGet_append]
    have hsingle : dictGet [(k, v)] kq = if kq == k then some v else none := by
      simp [dictGet]
    rw [hsingle]
    by_cases hq : (kq == k) = true
    · simp [hq]
    · simp only [Bool.not_eq_true] at hq
      simp [hq]

theorem foldl_insert_aliases (as : List Str) (g : Group) (idx : List (Str × Group)) (k : Str) :
    dictGet (as.foldl (fun m a => dictInsert m (lower a) g) idx) k =
      if as.any (fun a => lower a == k) then some g else dictGet idx k := by
  induction as generalizing idx with
  | nil => simp
  | cons a as ih =>
    simp only [List.foldl_cons, List.any_cons, ih, dictGet_insert]
    by_cases hany : as.any (fun a => lower a == k) = true
    · simp [hany]
    · simp only [Bool.not_eq_true] at hany
      by_cases hk : k = lower a
      · subst hk
        simp [hany]
      · have h1 : (k == lower a) = false := by simpa using hk
        have h2 : (lower a == k) = false := by
          simp only [beq_eq_false_iff_ne, ne_eq]
          exact fun h => hk h.symm
        simp [h1, h2, hany]

theorem bam_step (idx : List (Str × Group)) (g : Group) (k : Str) :
    dictGet (g.aliases.foldl (fun m a => dictInsert m (lower a) g)
      (dictInsert idx (lower g.name) g)) k =
      if claimsKey g k then some g else dictGet idx k := by
  rw [foldl_insert_aliases]
  unfold claimsKey
  by_cases hany : g.aliases.any (fun a => lower a == k) = true
  · simp [hany]
  · simp only [Bool.not_eq_true] at hany
    rw [dictGet_insert]
    by_cases hk : k = lower g.name
    · subst hk
      simp [hany]
    · have h1 : (k == lower g.name) = false := by simpa using hk
      have h2 : (lower g.name == k) = false := by
        simp only [beq_eq_false_iff_ne, ne_eq]
        exact fun h => hk h.symm
      simp [h1, h2, hany]

/-- The alias map resolves every key to the record of the **last** actor, in
    catalog order, whose lower-cased name or synonym equals the key. -/
theorem bam_get (groups : List Group) (k : Str) :
    dictGet (build_alias_map groups) k =
      (groups.filter (fun g => claimsKey g k)).getLast? := by
  induction groups using List.reverseRecOn with
  | nil => rfl
  | append_singleton gs g ih =>
    unfold build_alias_map
    rw [List.foldl_append]
    simp only [List.foldl_cons, List.foldl_nil]
    rw [bam_step]
    unfold build_alias_map at ih
    rw [List.filter_append, List.getLast?_append]
    by_cases hc : claimsKey g k = true
    · simp [hc]
    · simp only [Bool.not_eq_true] at hc
      simp [hc, ih]

theorem bam_mem (groups : List Group) (k : Str) (g : Group)
    (h : dictGet (build_alias_map groups) k = some g) : g ∈ groups := by
  rw [bam_get] at h
  have hm : g ∈ (groups.filter (fun g => claimsKey g k)).getLast? := h
  obtain ⟨hne, heq⟩ := List.mem_getLast?_eq_getLast hm
  have : g ∈ groups.filter (fun g => claimsKey g k) := heq ▸ List.getLast_mem hne
  exact (List.mem_filter.mp this).1

theorem not_dateLt (a b : Date) : (!dateLt a b) = dateLe b a := by
  cases h : dateLt a b with
  | true =>
    cases hle : dateLe b a with
    | true => exact absurd (dateLe_antisymm_lt b a hle h) (fun x => x)
    | false => rfl
  | false =>
    have h2 := (dateLt_false_iff a b).mp h
    simp [h2]

theorem strptime_ne_nil (ds : Str) (dt : Date) (h : strptimeYMD ds = some dt) :
    ds.isEmpty = false := by
  cases ds with
  | nil => exact absurd h (by simp [strptimeYMD, read4])
  | cons c t => rfl

-- ---------- Claim theorems ----------

/-- C9: the enrichment step returns exactly one timeline event per input
    campaign, in input order: element `i` of the output is the event derived
    from campaign `i`, and the output length always equals the campaign
    count — no campaign is ever dropped for missing or malformed fields. -/
theorem c9_one_event_per_campaign (campaigns : List Campaign) (groups : List Group) :
    (to_timeline_events campaigns groups).length = campaigns.length ∧
    ∀ i : Nat, (to_timeline_events campaigns groups)[i]? =
      (campaigns[i]?).map (eventOfCampaign (build_alias_map groups)) := by
  constructor
  · simp [to_timeline_events]
  · intro i
    simp [to_timeline_events, List.getElem?_map]

/-- C5: an event's primary date is the parse of `first_seen` when that parse
    succeeds, else the parse of `last_seen`, else absent; and `date_range`
    always carries the two independently parsed values, even when the primary
    date is absent.  A full timestamp is truncated to its calendar date and a
    bare `YYYY-MM-DD` string is accepted; garbage parses to nothing. -/
theorem c5_primary_date_and_range :
    (∀ (am : List (Str × Group)) (c : Campaign),
       (eventOfCampaign am c).date = ((_iso c.first_seen).or (_iso c.last_seen)) ∧
       (eventOfCampaign am c).date_range =
         { first_seen := _iso c.first_seen, last_seen := _iso c.last_seen }) ∧
    _iso (some (str "2021-03-05T00:00:00Z")) = some (str "2021-03-05") ∧
    _iso (some (str "2021-03-05")) = some (str "2021-03-05") ∧
    _iso (some (str "not-a-date")) = none := by
  refine ⟨fun am c => ⟨?_, rfl⟩, by decide, by decide, by decide⟩
  show _pick_best_date c.first_seen c.last_seen = _
  exact pick_best_eq_or c.first_seen c.last_seen

/-- C8: if either upstream fetch of a refresh cycle fails, the refresh leaves
    the cache untouched (groups, campaigns and fetch timestamp all keep their
    pre-refresh values) and reports failure; a synchronous forced refresh
    returns a failure result against the unchanged cache. -/
theorem c8_failed_refresh_preserves_cache (fm : Except Str (List MispEntry))
    (fc : Except Str (List StixObj)) (now : Str) (cache : Cache)
    (h : fm.isOk = false ∨ fc.isOk = false) :
    (refresh_cache fm fc now cache).1 = cache ∧
    (refresh_cache fm fc now cache).2.isOk = false ∧
    (force_refresh fm fc now cache).1 = cache ∧
    (force_refresh fm fc now cache).2.isOk = false := by
  cases fm with
  | error e => simp [refresh_cache, force_refresh, Except.isOk, Except.toBool]
  | ok values =>
    cases fc with
    | error e => simp [refresh_cache, force_refresh, Except.isOk, Except.toBool]
    | ok objects =>
      rcases h with h | h <;> simp [Except.isOk, Except.toBool] at h

theorem c8_witness :
    (refresh_cache (Except.error (str "timeout")) (Except.ok []) (str "t1") c8cache).1 =
      c8cache ∧
    (refresh_cache (Except.error (str "timeout")) (Except.ok []) (str "t1")
      c8cache).2.isOk = false ∧
    (force_refresh (Except.error (str "timeout")) (Except.ok []) (str "t1") c8cache).1 =
      c8cache ∧
    (force_refresh (Except.error (str "timeout")) (Except.ok []) (str "t1")
      c8cache).2.isOk = false :=
  c8_failed_refresh_preserves_cache (Except.error (str "timeout")) (Except.ok [])
    (str "t1") c8cache (Or.inl rfl)

/-- C3 counterexample: an out-of-range limit is NOT clamped into [1, 5000];
    FastAPI's declarative `ge`/`le` bounds reject the request with a 422
    validation error, both below and above the range. -/
theorem c3_counterexample :
    get_timeline_endpoint [] [] { limit := 0 } =
      Except.error (str "422 Unprocessable Entity") ∧
    get_timeline_endpoint [] [] { limit := 5001 } =
      Except.error (str "422 Unprocessable Entity") := by
  constructor <;> rfl

/-- C3 amended: the returned event list never exceeds the requested limit and
    the limit defaults to 500; but a limit outside the inclusive range
    [1, 5000] is rejected with a validation error at the boundary, not
    clamped into range. -/
theorem c3_amended (campaigns : List Campaign) (groups : List Group) (q : TimelineQuery) :
    ({} : TimelineQuery).limit = 500 ∧
    (validateQuery q = true →
       get_timeline_endpoint campaigns groups q =
         Except.ok (get_timeline campaigns groups q) ∧
       (get_timeline campaigns groups q).length ≤ q.limit.toNat) ∧
    (¬ (1 ≤ q.limit ∧ q.limit ≤ 5000) →
       get_timeline_endpoint campaigns groups q =
         Except.error (str "422 Unprocessable Entity")) := by
  refine ⟨rfl, fun hv => ⟨by simp [get_timeline_endpoint, hv], ?_⟩, fun hb => ?_⟩
  · show (get_timeline campaigns groups q).length ≤ q.limit.toNat
    unfold get_timeline
    rw [List.length_take]
    exact inf_le_left
  · have hv : validateQuery q = false := by
      unfold validateQuery
      by_cases hA : (1 : Int) ≤ q.limit
      · have hB : ¬ q.limit ≤ 5000 := fun hB => hb ⟨hA, hB⟩
        simp [hA, hB]
      · simp [hA]
    simp [get_timeline_endpoint, hv]

theorem c3_amended_witness :
    (get_timeline_endpoint [] [] { limit := 700 } =
       Except.ok (get_timeline [] [] { limit := 700 })) ∧
    (get_timeline [] [] ({ limit := 700 } : TimelineQuery)).length ≤
      (({ limit := 700 } : TimelineQuery).limit).toNat ∧
    get_timeline_endpoint [] [] { limit := 0 } =
      Except.error (str "422 Unprocessable Entity") :=
  ⟨((c3_amended [] [] { limit := 700 }).2.1 (by decide)).1,
   ((c3_amended [] [] { limit := 700 }).2.1 (by decide)).2,
   (c3_amended [] [] { limit := 0 }).2.2 (by decide)⟩

/-- C6: date-range bounds are inclusive comparisons against the event's
    primary date; an event with no parseable primary date passes every
    date-range filter unconditionally; a malformed bound string is ignored
    (equivalent to no bound), never a hard error. -/
theorem c6_date_range_policy :
    (∀ (ds fs ts : Str) (dt fdt tdt : Date),
       strptimeYMD ds = some dt → strptimeYMD fs = some fdt → strptimeYMD ts = some tdt →
       date_in_range (some fs) (some ts) (some ds) = (dateLe fdt dt && dateLe dt tdt)) ∧
    (∀ (fromS toS : Option Str) (ds : Str), strptimeYMD ds = none →
       date_in_range fromS toS (some ds) = true) ∧
    (∀ (fromS toS : Option Str), date_in_range fromS toS none = true) ∧
    (∀ (toS : Option Str) (d : Option Str) (fs : Str), strptimeYMD fs = none →
       date_in_range (some fs) toS d = date_in_range none toS d) ∧
    (∀ (fromS : Option Str) (d : Option Str) (ts : Str), strptimeYMD ts = none →
       date_in_range fromS (some ts) d = date_in_range fromS none d) := by
  refine ⟨?_, ?_, ?_, ?_, ?_⟩
  · intro ds fs ts dt fdt tdt hd hf ht
    unfold date_in_range
    simp only [strptime_ne_nil ds dt hd, strptime_ne_nil fs fdt hf,
      strptime_ne_nil ts tdt ht, Bool.false_eq_true, if_false, hd, hf, ht]
    rw [not_dateLt, not_dateLt]
  · intro fromS toS ds h
    unfold date_in_range
    simp only [h, ite_self]
  · intro fromS toS
    rfl
  · intro toS d fs h
    unfold date_in_range
    cases d with
    | none => rfl
    | some ds =>
      simp only [h, ite_self]
  · intro fromS d ts h
    unfold date_in_range
    cases d with
    | none => rfl
    | some ds =>
      simp only [h, ite_self]

theorem c6_witness :
    date_in_range (some (str "2021-01-01")) (some (str "2021-01-03"))
      (some (str "2021-01-02")) =
      (dateLe ⟨2021, 1, 1⟩ ⟨2021, 1, 2⟩ && dateLe ⟨2021, 1, 2⟩ ⟨2021, 1, 3⟩) :=
  c6_date_range_policy.1 (str "2021-01-02") (str "2021-01-01") (str "2021-01-03")
    ⟨2021, 1, 2⟩ ⟨2021, 1, 1⟩ ⟨2021, 1, 3⟩ (by decide) (by decide) (by decide)

/-- C4: actor-catalog entries lacking a primary name are skipped; the alias
    map sends every key to the record of the **last** catalog actor whose
    lower-cased name or synonym equals the key (last-write-wins on
    collisions), and every retained actor's own name and synonyms do resolve
    to some claimant of that key. -/
theorem c4_alias_map (values : List MispEntry) (k : Str) :
    (load_misp_groups values).length = values.countP truthyName ∧
    dictGet (build_alias_map (load_misp_groups values)) k =
      ((load_misp_groups values).filter (fun g => claimsKey g k)).getLast? ∧
    (∀ g ∈ load_misp_groups values, ∀ a : Str, (a = g.name ∨ a ∈ g.aliases) →
       dictGet (build_alias_map (load_misp_groups values)) (lower a) ≠ none) := by
  refine ⟨?_, bam_get _ k, ?_⟩
  · induction values with
    | nil => rfl
    | cons v t ih =>
      cases hv : v.value with
      | none =>
        have hstep : load_misp_groups (v :: t) = load_misp_groups t := by
          simp [load_misp_groups, List.filterMap_cons, hv]
        rw [hstep, List.countP_cons, ih]
        simp [truthyName, hv]
      | some n =>
        cases n with
        | nil =>
          have hstep : load_misp_groups (v :: t) = load_misp_groups t := by
            simp [load_misp_groups, List.filterMap_cons, hv]
          rw [hstep, List.countP_cons, ih]
          simp [truthyName, hv]
        | cons ch tl =>
          have hstep : load_misp_groups (v :: t) =
              { name := ch :: tl, country := v.country, aliases := v.synonyms.getD [],
                refs := v.refs.getD [] } :: load_misp_groups t := by
            simp [load_misp_groups, List.filterMap_cons, hv]
          rw [hstep, List.length_cons, List.countP_cons, ih]
          simp [truthyName, hv]
  · intro g hg a ha
    rw [bam_get]
    have hclaims : claimsKey g (lower a) = true := by
      unfold claimsKey
      rcases ha with rfl | ha
      · simp
      · refine Bool.or_eq_true_iff.mpr (Or.inr ?_)
        exact List.any_eq_true.mpr ⟨a, ha, by simp⟩
    have hmem : g ∈ (load_misp_groups values).filter (fun g => claimsKey g (lower a)) :=
      List.mem_filter.mpr ⟨hg, hclaims⟩
    have hne := List.ne_nil_of_mem hmem
    rw [List.getLast?_eq_getLast_of_ne_nil hne]
    exact fun h => Option.noConfusion h

theorem c4_witness :
    dictGet (build_alias_map (load_misp_groups c4values)) (lower (str "Fancy Bear")) ≠
      none :=
  (c4_alias_map c4values (lower (str "Fancy Bear"))).2.2 c4g (by decide)
    (str "Fancy Bear") (Or.inr (by decide))

/-- C2 counterexample: with one campaign attributed (in the graph) to
    "GhostBear" and a catalog holding only APT28/Russia, the country filter
    for "Unknown" returns the campaign's event even though the campaign has
    an attribution edge and no actor record exists for its label at all — so
    the filter result is not the union the claim describes (which is empty
    here). -/
theorem c2_counterexample :
    countryFilter (str "Unknown") (to_timeline_events [c2ghost] c2groups) =
      to_timeline_events [c2ghost] c2groups ∧
    (to_timeline_events [c2ghost] c2groups).length = 1 ∧
    c2ghost.group = some (str "GhostBear") ∧
    dictGet (build_alias_map c2groups) (lower (str "GhostBear")) = none := by
  refine ⟨?_, ?_, ?_, ?_⟩ <;> rfl

/-- C2 amended: provided no catalog country string itself reads "unknown"
    case-insensitively, filtering by country="Unknown" returns exactly the
    events of campaigns whose effective group label fails to resolve to any
    actor record (which includes every campaign with no graph attribution,
    when no actor claims the alias "unknown") or whose resolved record's
    country is absent or empty. -/
theorem c2_amended (campaigns : List Campaign) (groups : List Group)
    (hc : groups.all okCountry = true)
    (hu : dictGet (build_alias_map groups) (str "unknown") = none) :
    countryFilter (str "Unknown") (to_timeline_events campaigns groups) =
      to_timeline_events (campaigns.filter (unknownCountry groups)) groups ∧
    ∀ c : Campaign, c.group = none → unknownCountry groups c = true := by
  constructor
  · unfold countryFilter to_timeline_events
    rw [List.filter_map]
    congr 1
    apply List.filter_congr
    intro c _
    show (lower ((eventOfCampaign (build_alias_map groups) c).country.getD []) ==
      lower (str "Unknown")) = unknownCountry groups c
    unfold eventOfCampaign unknownCountry
    dsimp only [Option.getD]
    rw [show lower (str "Unknown") = str "unknown" from by decide]
    cases hg : dictGet (build_alias_map groups) (lower (labelOf c)) with
    | none => decide
    | some g =>
      dsimp only
      cases hcg : g.country with
      | none => decide
      | some s =>
        dsimp only
        cases hs : s.isEmpty with
        | false =>
          have hok := List.all_eq_true.mp hc g (bam_mem groups (lower (labelOf c)) g hg)
          unfold okCountry at hok
          rw [hcg] at hok
          have hf : (lower s == str "unknown") = false := by simpa using hok
          rw [if_neg (by decide : ¬ ((false : Bool) = true))]
          exact hf
        | true =>
          rw [if_pos rfl]
          decide
  · intro c hcnone
    unfold unknownCountry
    have hl : labelOf c = str "Unknown" := by
      unfold labelOf
      rw [hcnone]
    rw [hl]
    rw [show lower (str "Unknown") = str "unknown" from rfl]
    rw [hu]

theorem c2_amended_witness :
    countryFilter (str "Unknown") (to_timeline_events c2wcamps c2groups) =
      to_timeline_events (c2wcamps.filter (unknownCountry c2groups)) c2groups :=
  (c2_amended c2wcamps c2groups (by decide) (by decide)).1

-- ---------- Helper lemmas: date parsing round-trip ----------

theorem daysInMonth_le_31 (y m : Nat) : daysInMonth y m ≤ 31 := by
  unfold daysInMonth
  split
  · split <;> omega
  · split <;> omega

theorem digitVal_digitChar (n : Nat) (h : n ≤ 9) : digitVal? (digitChar n) = some n := by
  interval_cases n <;> rfl

theorem read4_pad4 (y : Nat) (h : y ≤ 9999) (rest : Str) :
    read4 (pad4 y ++ rest) = some (y, rest) := by
  have h1 : y / 1000 ≤ 9 := by omega
  have h2 : y / 100 % 10 ≤ 9 := by omega
  have h3 : y / 10 % 10 ≤ 9 := by omega
  have h4 : y % 10 ≤ 9 := by omega
  show read4 (digitChar (y / 1000) :: digitChar (y / 100 % 10) :: digitChar (y / 10 % 10) ::
    digitChar (y % 10) :: rest) = some (y, rest)
  simp only [read4, digitVal_digitChar _ h1, digitVal_digitChar _ h2,
    digitVal_digitChar _ h3, digitVal_digitChar _ h4]
  simp only [Option.some.injEq, Prod.mk.injEq]
  constructor
  · omega
  · trivial

theorem readMonth_pad2 (m : Nat) (h1 : 1 ≤ m) (h2 : m ≤ 12) (rest : Str) :
    readMonth (pad2 m ++ rest) = some (m, rest) := by
  interval_cases m <;> rfl

theorem readDay_pad2 (d : Nat) (h1 : 1 ≤ d) (h2 : d ≤ 31) (rest : Str) :
    readDay (pad2 d ++ rest) = some (d, rest) := by
  interval_cases d <;> rfl

/-- The canonical `YYYY-MM-DD` rendering of a valid date re-parses under
    `strptime(s, "%Y-%m-%d")` to the same date. -/
theorem strptime_fmtDate (dt : Date) (h : validDate dt.year dt.month dt.day = true) :
    strptimeYMD (fmtDate dt) = some dt := by
  obtain ⟨y, m, d⟩ := dt
  simp only at h
  have hb : 1 ≤ y ∧ y ≤ 9999 ∧ 1 ≤ m ∧ m ≤ 12 ∧ 1 ≤ d ∧ d ≤ daysInMonth y m := by
    unfold validDate at h
    simp only [Bool.and_eq_true, decide_eq_true_eq] at h
    omega
  obtain ⟨hy1, hy2, hm1, hm2, hd1, hd2⟩ := hb
  have hd31 : d ≤ 31 := le_trans hd2 (daysInMonth_le_31 y m)
  show strptimeYMD (pad4 y ++ '-' :: (pad2 m ++ '-' :: pad2 d)) = some ⟨y, m, d⟩
  unfold strptimeYMD
  rw [read4_pad4 y hy2]
  dsimp only
  rw [if_pos rfl]
  rw [readMonth_pad2 m hm1 hm2]
  dsimp only
  rw [if_pos rfl]
  rw [show pad2 d = pad2 d ++ [] from (List.append_nil _).symm, readDay_pad2 d hd1 hd31]
  dsimp only
  simp only [List.isEmpty_nil, if_true]
  unfold mkValidDate
  rw [if_pos h]

theorem mkValidDate_valid (y m d : Nat) (dt : Date) (h : mkValidDate y m d = some dt) :
    validDate dt.year dt.month dt.day = true := by
  unfold mkValidDate at h
  split at h
  · rename_i hv
    cases h
    exact hv
  · exact absurd h (by simp)

theorem fromiso_valid (cs : Str) (dt : Date) (h : fromiso cs = some dt) :
    validDate dt.year dt.month dt.day = true := by
  unfold fromiso at h
  repeat' split at h
  all_goals first
    | exact mkValidDate_valid _ _ _ _ h
    | simp at h
  all_goals first
    | exact mkValidDate_valid _ _ _ _ h
    | exact mkValidDate_valid _ _ _ _ h.2

theorem strptime_valid (cs : Str) (dt : Date) (h : strptimeYMD cs = some dt) :
    validDate dt.year dt.month dt.day = true := by
  unfold strptimeYMD at h
  repeat' split at h
  all_goals first
    | exact mkValidDate_valid _ _ _ _ h
    | simp at h

/-- C10: `_iso` is total and canonical — whenever it returns a string, that
    string is the canonical rendering of a valid date and re-parses under the
    query engine's `%Y-%m-%d` parser; hence every non-absent event date
    produced by enrichment parses successfully, and the malformed-date
    fallback branches in the date-range filter and the sort key are
    unreachable for such dates. -/
theorem c10_iso_total_canonical :
    (∀ (x : Option Str) (t : Str), _iso x = some t →
       ∃ dtv : Date, t = fmtDate dtv ∧ strptimeYMD t = some dtv) ∧
    (∀ (am : List (Str × Group)) (c : Campaign) (t : Str),
       (eventOfCampaign am c).date = some t → (strptimeYMD t).isSome = true) := by
  have hmain : ∀ (x : Option Str) (t : Str), _iso x = some t →
      ∃ dtv : Date, t = fmtDate dtv ∧ strptimeYMD t = some dtv := by
    intro x t h
    unfold _iso at h
    split at h
    · exact absurd h (by simp)
    · split at h
      · exact absurd h (by simp)
      · split at h
        · rename_i dtv hfrom
          cases h
          exact ⟨dtv, rfl, strptime_fmtDate dtv (fromiso_valid _ dtv hfrom)⟩
        · split at h
          · rename_i dtv hstr
            cases h
            exact ⟨dtv, rfl, strptime_fmtDate dtv (strptime_valid _ dtv hstr)⟩
          · exact absurd h (by simp)
  refine ⟨hmain, ?_⟩
  intro am c t h
  have hdate : (eventOfCampaign am c).date = _pick_best_date c.first_seen c.last_seen := rfl
  rw [hdate, pick_best_eq_or] at h
  cases ho : _iso c.first_seen with
  | some s1 =>
    rw [ho] at h
    have ht : s1 = t := by
      have : (some s1).or (_iso c.last_seen) = some s1 := rfl
      rw [this] at h
      exact Option.some.inj h
    obtain ⟨dtv, _, hs⟩ := hmain c.first_seen s1 ho
    rw [← ht, hs]
    rfl
  | none =>
    rw [ho, Option.none_or] at h
    obtain ⟨dtv, _, hs⟩ := hmain c.last_seen t h
    rw [hs]
    rfl

theorem c10_witness : (strptimeYMD (str "2021-03-05")).isSome = true :=
  c10_iso_total_canonical.2 [] c10camp (str "2021-03-05") (by decide)


-- ---------- Helper lemmas and instances: sorting ----------

instance : IsTotal TimelineEvent evLeAsc :=
  ⟨fun a b => dateLe_total (sort_key a) (sort_key b)⟩

instance : IsTrans TimelineEvent evLeAsc :=
  ⟨fun a b c h1 h2 => dateLe_trans (sort_key a) (sort_key b) (sort_key c) h1 h2⟩

instance : IsTotal TimelineEvent evLeDesc :=
  ⟨fun a b => (dateLe_total (sort_key a) (sort_key b)).symm⟩

instance : IsTrans TimelineEvent evLeDesc :=
  ⟨fun a b c h1 h2 => dateLe_trans (sort_key c) (sort_key b) (sort_key a) h2 h1⟩

theorem sort_key_spec (ev : TimelineEvent) :
    sort_key ev = ⟨1900, 1, 1⟩ ∨
    ∃ s dtv, ev.date = some s ∧ strptimeYMD s = some dtv ∧ sort_key ev = dtv := by
  unfold sort_key
  cases hd : ev.date with
  | none => exact Or.inl rfl
  | some s =>
    dsimp only
    cases hs : strptimeYMD s with
    | none => exact Or.inl rfl
    | some dtv => exact Or.inr ⟨s, dtv, rfl, hs, rfl⟩

theorem afterSentinel_spec (e : TimelineEvent) (s : Str) (dtv : Date)
    (h : afterSentinel e = true) (hd : e.date = some s)
    (hs : strptimeYMD s = some dtv) : dateLt ⟨1900, 1, 1⟩ dtv = true := by
  unfold afterSentinel at h
  rw [hd] at h
  dsimp only at h
  rw [hs] at h
  exact h

theorem sortEvents_asc (events : List TimelineEvent) :
    sortEvents (str "date_asc") events = List.insertionSort evLeAsc events := by
  unfold sortEvents
  rw [if_neg (by decide : ¬ ((str "date_asc" == str "date_desc") = true))]

theorem sortEvents_desc (events : List TimelineEvent) :
    sortEvents (str "date_desc") events = List.insertionSort evLeDesc events := by
  unfold sortEvents
  rw [if_pos (by decide : (str "date_desc" == str "date_desc") = true)]

/-- C7 counterexample: with one undated campaign and one campaign dated
    1850-01-01 (before the 1900-01-01 sentinel), ascending sort puts the
    dated event FIRST and the undated event second — undated events do not
    always surface first under ascending order. -/
theorem c7_counterexample :
    (get_timeline [c7campNone, c7camp18] [] { sort := str "date_asc" }).map
      (fun e => e.date) = [some (str "1850-01-01"), none] := by decide

/-- C7 amended: the sort orders events by their primary-date sort key —
    events with no parseable date keyed at the fixed sentinel 1900-01-01 —
    ascending or descending per the request's sort parameter: each direction
    returns a permutation of the input sorted under the non-strict key
    comparison, and re-sorting the sorted output leaves it unchanged
    (deterministic, stable order).  Provided every parseable event date lies
    strictly after the sentinel, sentinel-keyed events surface first under
    ascending order and last under descending order. -/
theorem c7_amended (events : List TimelineEvent) :
    (∀ ev : TimelineEvent, ev.date = none → sort_key ev = ⟨1900, 1, 1⟩) ∧
    (sortEvents (str "date_asc") events).Perm events ∧
    (sortEvents (str "date_desc") events).Perm events ∧
    List.Sorted evLeAsc (sortEvents (str "date_asc") events) ∧
    List.Sorted evLeDesc (sortEvents (str "date_desc") events) ∧
    sortEvents (str "date_asc") (sortEvents (str "date_asc") events) =
      sortEvents (str "date_asc") events ∧
    sortEvents (str "date_desc") (sortEvents (str "date_desc") events) =
      sortEvents (str "date_desc") events ∧
    (events.all afterSentinel = true →
      (∀ (i j : Fin (sortEvents (str "date_asc") events).length),
         sort_key ((sortEvents (str "date_asc") events).get i) = ⟨1900, 1, 1⟩ →
         sort_key ((sortEvents (str "date_asc") events).get j) ≠ ⟨1900, 1, 1⟩ →
         (i : Nat) < (j : Nat)) ∧
      (∀ (i j : Fin (sortEvents (str "date_desc") events).length),
         sort_key ((sortEvents (str "date_desc") events).get i) = ⟨1900, 1, 1⟩ →
         sort_key ((sortEvents (str "date_desc") events).get j) ≠ ⟨1900, 1, 1⟩ →
         (j : Nat) < (i : Nat))) := by
  refine ⟨?_, ?_, ?_, ?_, ?_, ?_, ?_, ?_⟩
  · intro ev hnone
    unfold sort_key
    rw [hnone]
  · rw [sortEvents_asc]
    exact List.perm_insertionSort evLeAsc events
  · rw [sortEvents_desc]
    exact List.perm_insertionSort evLeDesc events
  · rw [sortEvents_asc]
    exact List.sorted_insertionSort evLeAsc events
  · rw [sortEvents_desc]
    exact List.sorted_insertionSort evLeDesc events
  · rw [sortEvents_asc, sortEvents_asc]
    exact List.Sorted.insertionSort_eq (List.sorted_insertionSort evLeAsc events)
  · rw [sortEvents_desc, sortEvents_desc]
    exact List.Sorted.insertionSort_eq (List.sorted_insertionSort evLeDesc events)
  · intro hd
    have hkey : ∀ ev : TimelineEvent, ev ∈ events → sort_key ev ≠ ⟨1900, 1, 1⟩ →
        dateLt ⟨1900, 1, 1⟩ (sort_key ev) = true := by
      intro ev hm hnot
      rcases sort_key_spec ev with hsent | ⟨s, dtv, hdate, hstr, hk⟩
      · exact absurd hsent hnot
      · rw [hk]
        exact afterSentinel_spec ev s dtv (List.all_eq_true.mp hd ev hm) hdate hstr
    constructor
    · rw [sortEvents_asc] at *
      intro i j hi hj
      have hsorted : List.Sorted evLeAsc (List.insertionSort evLeAsc events) :=
        List.sorted_insertionSort evLeAsc events
      by_contra hij
      have hmem : (List.insertionSort evLeAsc events).get j ∈ events :=
        ((List.perm_insertionSort evLeAsc events).mem_iff).mp
          (List.get_mem _ _ j.isLt)
      have hgt := hkey _ hmem hj
      rcases Nat.lt_or_ge (j : Nat) (i : Nat) with hlt | hge
      · have hrel := List.pairwise_iff_get.mp hsorted j i (by exact hlt)
        have hrel2 : dateLe (sort_key ((List.insertionSort evLeAsc events).get j))
            (sort_key ((List.insertionSort evLeAsc events).get i)) = true := hrel
        rw [hi] at hrel2
        exact dateLe_antisymm_lt _ _ hrel2 hgt
      · have heq : (i : Nat) = (j : Nat) := by omega
        have : i = j := Fin.ext heq
        subst this
        exact hj hi
    · rw [sortEvents_desc] at *
      intro i j hi hj
      have hsorted : List.Sorted evLeDesc (List.insertionSort evLeDesc events) :=
        List.sorted_insertionSort evLeDesc events
      by_contra hij
      have hmem : (List.insertionSort evLeDesc events).get j ∈ events :=
        ((List.perm_insertionSort evLeDesc events).mem_iff).mp
          (List.get_mem _ _ j.isLt)
      have hgt := hkey _ hmem hj
      rcases Nat.lt_or_ge (i : Nat) (j : Nat) with hlt | hge
      · have hrel := List.pairwise_iff_get.mp hsorted i j (by exact hlt)
        have hrel2 : dateLe (sort_key ((List.insertionSort evLeDesc events).get j))
            (sort_key ((List.insertionSort evLeDesc events).get i)) = true := hrel
        rw [hi] at hrel2
        exact dateLe_antisymm_lt _ _ hrel2 hgt
      · have heq : (i : Nat) = (j : Nat) := by omega
        have : i = j := Fin.ext heq
        subst this
        exact hj hi

theorem c7_amended_witness :
    (sortEvents (str "date_asc") [c7ev21, c7evNone]).Perm [c7ev21, c7evNone] ∧
    List.Sorted evLeAsc (sortEvents (str "date_asc") [c7ev21, c7evNone]) ∧
    (0 : Nat) < (1 : Nat) :=
  ⟨(c7_amended [c7ev21, c7evNone]).2.1,
   (c7_amended [c7ev21, c7evNone]).2.2.2.1,
   ((c7_amended [c7ev21, c7evNone]).2.2.2.2.2.2.2 (by decide)).1
     ⟨0, by decide⟩ ⟨1, by decide⟩ (by decide) (by decide)⟩


/-- C1 counterexample: campaign `campaign--1` has two `attributed-to` edges,
    the first dangling (target absent from the intrusion-set table), the
    second resolving to "Fancy Bear".  The loader skips the dangling edge and
    attributes the campaign to "Fancy Bear" — the campaign is NOT treated as
    unattributed and its event label is not "Unknown", contradicting the
    claim at this input. -/
theorem c1_counterexample :
    attributedTargets (indexBundle c1bundle).2.2 (str "campaign--1") =
      [str "intrusion-set--missing", str "intrusion-set--9"] ∧
    dictGet (indexBundle c1bundle).2.1 (str "intrusion-set--missing") = none ∧
    (load_mitre_campaigns_with_groups c1bundle).map (fun c => c.group) =
      [some (str "Fancy Bear")] ∧
    (to_timeline_events (load_mitre_campaigns_with_groups c1bundle) []).map
      (fun e => e.group_name) = [str "Fancy Bear"] := by
  refine ⟨?_, ?_, ?_, ?_⟩ <;> rfl

/-- C1 amended: a campaign's attributed group is the name of the **first
    resolvable** attribution edge in encounter order — dangling edges and
    nameless targets are skipped rather than ending attribution — and a
    campaign with no resolvable attribution is unattributed; its event's
    actor label is then exactly "Unknown", provided no catalog actor claims
    the name or alias "unknown". -/
theorem c1_amended (objects : List StixObj) (groups : List Group)
    (hu : dictGet (build_alias_map groups) (str "unknown") = none) :
    ∀ c ∈ load_mitre_campaigns_with_groups objects,
      c.group = (resolvedNames (indexBundle objects).2.1
                   (attributedTargets (indexBundle objects).2.2 c.id)).head? ∧
      (c.group = none →
        (eventOfCampaign (build_alias_map groups) c).group_name = str "Unknown") := by
  intro c hc
  constructor
  · unfold load_mitre_campaigns_with_groups at hc
    rw [List.mem_map] at hc
    obtain ⟨p, hp, rfl⟩ := hc
    rfl
  · intro hg
    have hl : labelOf c = str "Unknown" := by
      unfold labelOf
      rw [hg]
    show (eventOfCampaign (build_alias_map groups) c).group_name = str "Unknown"
    unfold eventOfCampaign
    dsimp only
    rw [hl]
    rw [show lower (str "Unknown") = str "unknown" from by decide]
    rw [hu]

theorem c1_amended_witness :
    (eventOfCampaign (build_alias_map []) c1wcamp).group_name = str "Unknown" :=
  (c1_amended c1wbundle [] rfl c1wcamp (by decide)).2 rfl

end AptTimeline
